import Mathlib

/-!
Verification of the medical evidence retrieval-and-ranking pipeline.

The TypeScript sources are shallowly embedded:
* machine floats become exact reals (`ℝ`, with `Real.log` for `Math.log`);
* JavaScript records become functions `String → Option _`;
* JavaScript string/option truthiness is modelled explicitly (`jsTruthyS`);
* asynchronous calls that can throw become values in `Except String _`,
  with external services (PubMed E-utilities, the LLM capabilities)
  abstracted as oracles passed in explicitly;
* `Array.prototype.sort` (stable since ES2019) with the comparator
  `(a, b) => b.qualityScore - a.qualityScore` is modelled by the stable
  `List.insertionSort` with the total relation `b.qualityScore ≤ a.qualityScore`.
-/

/-! ### JavaScript truthiness helpers -/

/-- Truthiness of a possibly-absent JavaScript string: `undefined` and the
empty string are falsy, every other string is truthy. -/
def jsTruthyS : Option String → Bool
  | none => false
  | some s => !(s == "")

/-- JavaScript `a || b` on a possibly-absent string `a` with string default `b`. -/
def jsOrS (a : Option String) (b : String) : String :=
  if jsTruthyS a then a.getD "" else b

/-! ### Data model (src/types/pubmed.ts) -/

/-- Metadata carried from the Pinecone vector index (`PineconeMetadata`).
All fields are provider-supplied and optional. -/
structure PineconeMetadata where
  article_citation : Option String := none
  article_file : Option String := none
  author : Option String := none
  last_updated : Option String := none
  license : Option String := none
  pmc_link : Option String := none
  pmid : Option String := none
  retracted : Option String := none
  title : Option String := none
  version : Option Nat := none
deriving DecidableEq, Repr

/-- Author entry of an ESummary record (`PubMedAuthor`). -/
structure PubMedAuthor where
  name : String
  authtype : Option String := none
deriving DecidableEq, Repr

/-- Article identifier entry of an ESummary record (`ArticleId`). -/
structure ArticleId where
  idtype : String
  value : String
deriving DecidableEq, Repr

/-- An ESummary document record (`PubMedDocSummary`).  The fields are
modelled as optional because the service data is untrusted and the client
code guards every access (`summary.title || ...`, `summary.authors?.map`). -/
structure PubMedDocSummary where
  uid : Option String := none
  title : Option String := none
  authors : Option (List PubMedAuthor) := none
  source : Option String := none
  pubdate : Option String := none
  articleids : Option (List ArticleId) := none
  fulljournalname : Option String := none
  sortpubdate : Option String := none
  pubtype : Option (List String) := none
deriving DecidableEq, Repr

/-- The `pubmedData` block of an `EnrichedDocument`. -/
structure PubMedData where
  title : String
  authors : List String
  journal : String
  publicationDate : String
  abstract : Option String := none
  meshTerms : Option (List String) := none
  articleTypes : List String
  doi : Option String := none
  pmcId : Option String := none
  citationCount : Nat
  relatedArticleCount : Nat
deriving DecidableEq, Repr

/-- A candidate document as retrieved from the vector index
(`Document` from langchain: `pageContent` plus metadata). -/
structure Document where
  pageContent : String
  metadata : PineconeMetadata
deriving DecidableEq, Repr

/-- A candidate plus PubMed enrichment (`EnrichedDocument`). -/
structure EnrichedDocument where
  content : String
  metadata : PineconeMetadata
  pubmedData : Option PubMedData := none
  qualityScore : ℝ
  vectorSimilarityScore : Option ℝ := none
  citationScore : Option ℝ := none

/-- Result of one enrichment phase (`EnrichmentResult`). -/
structure EnrichmentResult where
  enrichedCount : Nat
  enrichedDocs : List EnrichedDocument

/-! ### Pipeline configuration (src/config/pipeline.ts) -/

/-- Number of candidates retrieved from Pinecone for re-ranking. -/
def RERANK_CANDIDATES : Nat := 20

/-- Number of top documents passed to the response generator. -/
def TOP_K : Nat := 5

/-! ### Ranking (src/utils/ranking.ts) -/

/-- Weights for combining vector similarity and citation count
(`RankingWeights`). -/
structure RankingWeights where
  vectorSimilarity : ℝ
  citationCount : ℝ

/-- `DEFAULT_RANKING_WEIGHTS` from src/utils/ranking.ts. -/
noncomputable def DEFAULT_RANKING_WEIGHTS : RankingWeights :=
  { vectorSimilarity := 0.7, citationCount := 0.3 }

/-- `RANKING_WEIGHTS` from src/config/pipeline.ts. -/
noncomputable def RANKING_WEIGHTS : RankingWeights :=
  { vectorSimilarity := 0.7, citationCount := 0.3 }

/-- `calculateQualityScore` from src/utils/ranking.ts. -/
noncomputable def calculateQualityScore (vectorSimilarity : ℝ) (citationCount : Nat)
    (maxCitations : Nat) (weights : RankingWeights) : ℝ :=
  let normalizedCitations : ℝ :=
    if maxCitations > 0 then
      Real.log (citationCount + 1) / Real.log (maxCitations + 1)
    else 0
  vectorSimilarity * weights.vectorSimilarity + normalizedCitations * weights.citationCount

/-- `doc.pubmedData?.citationCount ?? 0`. -/
def docCitationCount (doc : EnrichedDocument) : Nat :=
  (doc.pubmedData.map PubMedData.citationCount).getD 0

/-- The descending-score relation used by the sort comparator
`(a, b) => b.qualityScore - a.qualityScore`. -/
def scoreGE (a b : EnrichedDocument) : Prop :=
  b.qualityScore ≤ a.qualityScore

noncomputable instance : DecidableRel scoreGE := fun a b => Real.decidableLE _ _

instance : IsTotal EnrichedDocument scoreGE :=
  ⟨fun a b => le_total b.qualityScore a.qualityScore⟩

instance : IsTrans EnrichedDocument scoreGE :=
  ⟨fun _ _ _ h h' => le_trans h' h⟩

/-- The per-document score assignment performed inside `rerankDocuments`. -/
noncomputable def assignScore (maxCitations : Nat) (weights : RankingWeights)
    (doc : EnrichedDocument) : EnrichedDocument :=
  let vectorSimilarity : ℝ := doc.vectorSimilarityScore.getD 1
  let citationCount : Nat := docCitationCount doc
  let qualityScore := calculateQualityScore vectorSimilarity citationCount maxCitations weights
  { doc with
      qualityScore := qualityScore
      vectorSimilarityScore := some vectorSimilarity
      citationScore := some (if maxCitations > 0 then
        Real.log (citationCount + 1) / Real.log (maxCitations + 1) else 0) }

/-- `Math.max(...documents.map((doc) => doc.pubmedData?.citationCount ?? 0))`
for a non-empty batch of citation counts in `ℕ`. -/
def batchMaxCitations (documents : List EnrichedDocument) : Nat :=
  (documents.map docCitationCount).foldr max 0

/-- `rerankDocuments` from src/utils/ranking.ts. -/
noncomputable def rerankDocuments (documents : List EnrichedDocument)
    (weights : RankingWeights) : List EnrichedDocument :=
  if documents.isEmpty then [] else
    let maxCitations := batchMaxCitations documents
    let rankedDocs := documents.map (assignScore maxCitations weights)
    rankedDocs.insertionSort scoreGE

/-- `getTopDocuments` from src/utils/ranking.ts. -/
noncomputable def getTopDocuments (documents : List EnrichedDocument) (n : Nat)
    (weights : RankingWeights) : List EnrichedDocument :=
  (rerankDocuments documents weights).take n

/-! ### PubMed client interface, as consumed by the enrichment service.

`searchByTitleAndAuthor` never throws (src/clients/pubmed.ts catches and
returns `[]`), so it is a pure function.  The three batched fetches can
fail after exhausting retries, so they return `Except`.  A returned
mapping (a JS `Record`) is modelled as a function `String → Option _`. -/

/-- The PubMed client operations used by the enrichment service, abstracted
over the network. -/
structure PubMedClientModel where
  searchByTitleAndAuthor : String → Option String → List String
  fetchCitationCounts : List String → Except String (String → Option Nat)
  fetchDocumentSummaries : List String → Except String (String → Option PubMedDocSummary)
  fetchAbstracts : List String → Except String (String → Option String)

/-! ### Enrichment service (src/services/pubmedEnrichment.ts) -/

/-- The body of the `resolvePMIDs` loop for a single document:
take `metadata.pmid`; when it is falsy or the sentinel `"0"`, search by
title (and author) and take the first hit; finally `pmid || undefined`. -/
def resolveOne (client : PubMedClientModel) (doc : Document) : Option String :=
  let metadata := doc.metadata
  let pmid0 := metadata.pmid
  let pmid1 :=
    if !(jsTruthyS pmid0) || (pmid0 == some "0") then
      if jsTruthyS metadata.title then
        (client.searchByTitleAndAuthor (metadata.title.getD "") metadata.author).head?
      else pmid0
    else pmid0
  if jsTruthyS pmid1 then pmid1 else none

/-- `resolvePMIDs`: the per-index map of resolved PMIDs (the JS code builds
a record keyed by position; positions are kept here as list indices). -/
def resolvePMIDs (client : PubMedClientModel) (documents : List Document) :
    List (Option String) :=
  documents.map (resolveOne client)

/-- `createMinimalEnrichedDoc` from src/services/pubmedEnrichment.ts. -/
def createMinimalEnrichedDoc (doc : Document) (citationCount : Nat := 0) :
    EnrichedDocument :=
  let metadata := doc.metadata
  { content := doc.pageContent
    metadata := metadata
    qualityScore := 0
    vectorSimilarityScore := some 1
    pubmedData := some
      { title := jsOrS metadata.title "Unknown"
        authors := if jsTruthyS metadata.author then [metadata.author.getD ""] else []
        journal := jsOrS metadata.article_citation "Unknown"
        publicationDate := jsOrS metadata.last_updated "Unknown"
        articleTypes := []
        citationCount := citationCount
        relatedArticleCount := 0 } }

/-- `createFullyEnrichedDoc` from src/services/pubmedEnrichment.ts. -/
def createFullyEnrichedDoc (doc : EnrichedDocument) (summary : Option PubMedDocSummary)
    (abstract : Option String) (citationCount : Nat) : EnrichedDocument :=
  match summary with
  | none => doc
  | some summary =>
    let metadata := doc.metadata
    let authors := (summary.authors.map (fun as => as.map PubMedAuthor.name)).getD []
    let doi := ((summary.articleids.getD []).find?
      (fun id => id.idtype == "doi")).map ArticleId.value
    let pmcId := ((summary.articleids.getD []).find?
      (fun id => id.idtype == "pmc")).map ArticleId.value
    let pubmedData : PubMedData :=
      { title := jsOrS summary.title (jsOrS metadata.title "Unknown")
        authors := authors
        journal := jsOrS summary.fulljournalname (jsOrS summary.source "Unknown")
        publicationDate := jsOrS summary.pubdate (jsOrS summary.sortpubdate "Unknown")
        abstract := abstract
        articleTypes := summary.pubtype.getD []
        doi := doi
        pmcId := pmcId
        citationCount := citationCount
        relatedArticleCount := 0 }
    { doc with pubmedData := some pubmedData }

/-- Phase 1, `enrichWithCitationsOnly`: resolve PMIDs for the first
`maxArticlesToEnrich` candidates, fetch citation counts in one batched
call, and wrap every candidate as a minimally enriched document. -/
def enrichWithCitationsOnly (client : PubMedClientModel) (documents : List Document)
    (maxArticlesToEnrich : Nat) : Except String EnrichmentResult :=
  let docsToEnrich := documents.take maxArticlesToEnrich
  let pmidMap := resolvePMIDs client docsToEnrich
  let validPmids := pmidMap.filterMap id
  if validPmids.isEmpty then
    .ok { enrichedCount := 0
          enrichedDocs := docsToEnrich.map (fun doc => createMinimalEnrichedDoc doc) }
  else
    match client.fetchCitationCounts validPmids with
    | .error e => .error e
    | .ok citationCounts =>
      let enrichedDocs := List.zipWith
        (fun doc pmid => createMinimalEnrichedDoc doc
          (if jsTruthyS pmid then (citationCounts (pmid.getD "")).getD 0 else 0))
        docsToEnrich pmidMap
      .ok { enrichedCount := (enrichedDocs.filter (fun d =>
              match d.pubmedData with
              | some pd => decide (0 < pd.citationCount)
              | none => false)).length
            enrichedDocs := enrichedDocs }

/-- The PMIDs Phase 3 fetches for: original `metadata.pmid` values that are
strings other than the sentinel `"0"`. -/
def phase3Pmids (documents : List EnrichedDocument) : List String :=
  documents.filterMap (fun doc =>
    match doc.metadata.pmid with
    | some p => if p == "0" then none else some p
    | none => none)

/-- Phase 3, `enrichWithFullMetadata`: fetch summaries and abstracts for
the narrowed set and merge them in, preserving Phase-1 citation counts.
The two fetches run under `Promise.all`; a failure of either rejects the
whole call, which the service does not catch. -/
def enrichWithFullMetadata (client : PubMedClientModel)
    (documents : List EnrichedDocument) : Except String EnrichmentResult :=
  let pmids := phase3Pmids documents
  if pmids.isEmpty then
    .ok { enrichedCount := 0, enrichedDocs := documents }
  else
    match client.fetchDocumentSummaries pmids, client.fetchAbstracts pmids with
    | .error e, _ => .error e
    | .ok _, .error e => .error e
    | .ok summaries, .ok abstracts =>
      let enrichedDocs := documents.map (fun doc =>
        let pmid := doc.metadata.pmid
        if !(jsTruthyS pmid) || (pmid == some "0") then doc
        else
          createFullyEnrichedDoc doc (summaries (pmid.getD "")) (abstracts (pmid.getD ""))
            (docCitationCount doc))
      .ok { enrichedCount := (enrichedDocs.filter (fun d =>
              jsTruthyS (d.pubmedData.bind PubMedData.abstract))).length
            enrichedDocs := enrichedDocs }

/-! ### Enricher node (src/nodes/pubmedEnricher.ts) -/

/-- The three-phase funnel run by the `pubmedEnricher` node on the
retrieved documents.  No phase is wrapped in a try/catch, so an error from
a phase propagates to the caller of the node. -/
noncomputable def pubmedEnricher (client : PubMedClientModel)
    (retrievedDocs : List Document) : Except String (List EnrichedDocument) :=
  if retrievedDocs.isEmpty then .ok []
  else
    match enrichWithCitationsOnly client retrievedDocs RERANK_CANDIDATES with
    | .error e => .error e
    | .ok citationResult =>
      let topCandidates := getTopDocuments citationResult.enrichedDocs TOP_K RANKING_WEIGHTS
      match enrichWithFullMetadata client topCandidates with
      | .error e => .error e
      | .ok fullResult => .ok fullResult.enrichedDocs

/-! ### PubMed E-utilities client internals (src/clients/pubmed.ts)

The network layer (`fetchWithRetry`) is abstracted as the `Except`-valued
response handed to each operation; the `Nat` component of each result
counts the network round trips the operation issues (0 or 1 batched
call). -/

/-- One `linksetdbs` entry of an ELink response. -/
structure ELinkLinksetDb where
  linkname : String
  link : Option (List String) := none
deriving DecidableEq, Repr

/-- One `linksets` entry of an ELink response. -/
structure ELinkLinkset where
  ids : List String
  linksetdbs : Option (List ELinkLinksetDb) := none
deriving DecidableEq, Repr

/-- An ELink response body. -/
structure ELinkResponse where
  linksets : Option (List ELinkLinkset) := none
deriving DecidableEq, Repr

/-- The `result` object of an ESummary response: the `uids` array plus the
per-PMID entries, which at runtime are either summary objects or strings. -/
structure ESummaryResultData where
  uids : Option (List String) := none
  entries : String → Option (Sum String PubMedDocSummary)

/-- An ESummary response body. -/
structure ESummaryResponse where
  result : Option ESummaryResultData := none

/-- JS record assignment `m[k] = v`, on records modelled as functions. -/
def recordSet {α : Type} (m : String → Option α) (k : String) (v : α) :
    String → Option α :=
  fun q => if q = k then some v else m q

/-- The per-linkset step of the `fetchCitationCounts` loop: when the
linkset has a truthy first id and a `pubmed_pubmed_citedin` entry with a
`link` array, record that array's length for the source PMID. -/
def citationStep (counts : String → Option Nat) (linkset : ELinkLinkset) :
    String → Option Nat :=
  if jsTruthyS linkset.ids.head? then
    let sourcePmid := linkset.ids.head?.getD ""
    match (linkset.linksetdbs.getD []).find?
        (fun db => db.linkname == "pubmed_pubmed_citedin") with
    | some citedByLink =>
      match citedByLink.link with
      | some links => recordSet counts sourcePmid links.length
      | none => counts
    | none => counts
  else counts

/-- The body of `PubMedClient.fetchCitationCounts` after a successful
ELink call: initialise every requested PMID to 0, then fill in counts from
the linksets. -/
def citationFold (data : ELinkResponse) (pmids : List String) : String → Option Nat :=
  let citationCounts := pmids.foldl (fun m pmid => recordSet m pmid 0) (fun _ => none)
  (data.linksets.getD []).foldl citationStep citationCounts

/-- `PubMedClient.fetchCitationCounts`: empty input short-circuits to an
empty mapping with no network call; otherwise one batched ELink call is
issued and `citationFold` builds the mapping. -/
def fetchCitationCounts (response : Except String ELinkResponse)
    (pmids : List String) : Except String (String → Option Nat) × Nat :=
  if pmids.isEmpty then (.ok fun _ => none, 0)
  else
    match response with
    | .error e => (.error e, 1)
    | .ok data => (.ok (citationFold data pmids), 1)

/-- `PubMedClient.fetchDocumentSummaries`: empty input short-circuits to an
empty mapping with no network call; otherwise one batched ESummary call is
issued and the non-string entries listed in `result.uids` are collected. -/
def fetchDocumentSummaries (response : Except String ESummaryResponse)
    (pmids : List String) : Except String (String → Option PubMedDocSummary) × Nat :=
  if pmids.isEmpty then (.ok fun _ => none, 0)
  else
    match response with
    | .error e => (.error e, 1)
    | .ok data =>
      let summaries : String → Option PubMedDocSummary :=
        match data.result with
        | none => fun _ => none
        | some result =>
          match result.uids with
          | none => fun _ => none
          | some uids =>
            uids.foldl (fun m pmid =>
              match result.entries pmid with
              | some (Sum.inr docData) => recordSet m pmid docData
              | _ => m) (fun _ => none)
      (.ok summaries, 1)

/-- A linkset reports citing links for `p` when its first id is truthy and
equal to `p` and it has a `pubmed_pubmed_citedin` entry carrying a `link`
array (of any length). -/
def linksetReports (linkset : ELinkLinkset) (p : String) : Prop :=
  jsTruthyS linkset.ids.head? ∧ linkset.ids.head? = some p ∧
    ∃ citedByLink ∈ (linkset.linksetdbs.getD []).find?
        (fun db => db.linkname == "pubmed_pubmed_citedin"),
      citedByLink.link.isSome

/-! ### Scope classification (src/nodes/scopeClassifier.ts and
src/config/scopeKeywords.ts) -/

/-- JavaScript `String.prototype.toLowerCase`, character by character.
Extensionally this is `String.toLower`, but it is written by structural
recursion over the character data so that concrete queries evaluate. -/
def jsToLower (s : String) : String :=
  String.mk (s.data.map Char.toLower)

/-- JavaScript `String.prototype.includes`: substring containment. -/
def jsIncludes (s sub : String) : Bool :=
  decide (sub.toList <:+: s.toList)

/-- `MEDICAL_KEYWORDS` from src/config/scopeKeywords.ts. -/
def MEDICAL_KEYWORDS : List String :=
  ["diabetes", "cancer", "covid", "coronavirus", "flu", "asthma",
   "hypertension", "arthritis", "depression", "anxiety",
   "pain", "fever", "bleeding", "nausea", "cough", "headache", "fatigue",
   "dizzy", "vomiting",
   "medication", "medicine", "treatment", "prescription", "diagnosis",
   "symptom", "disease", "infection", "therapy", "surgery",
   "heart", "lung", "kidney", "liver", "stomach", "brain", "blood",
   "doctor", "hospital", "clinic", "patient"]

/-- `NON_MEDICAL_KEYWORDS` from src/config/scopeKeywords.ts. -/
def NON_MEDICAL_KEYWORDS : List String :=
  ["weather", "temperature", "forecast", "rain", "snow",
   "recipe", "restaurant", "pizza", "burger", "cooking",
   "movie", "music", "song", "game", "sport", "football", "basketball",
   "computer", "phone", "app", "software",
   "hotel", "flight", "travel", "vacation",
   "news", "stock", "price", "joke"]

/-- `containsMedicalKeyword`: first medical keyword (in list order) that is
a substring of the lowercased query. -/
def containsMedicalKeyword (query : String) : Option String :=
  let lowerQuery := jsToLower query
  MEDICAL_KEYWORDS.find? (fun keyword => jsIncludes lowerQuery keyword)

/-- `containsNonMedicalKeyword`: first non-medical keyword (in list order)
that is a substring of the lowercased query. -/
def containsNonMedicalKeyword (query : String) : Option String :=
  let lowerQuery := jsToLower query
  NON_MEDICAL_KEYWORDS.find? (fun keyword => jsIncludes lowerQuery keyword)

/-- `classifyQuery`: keyword fast paths, then LLM classification.  The LLM
capability is abstracted as a boolean oracle; the second component records
whether the LLM was consulted. -/
def classifyQuery (llm : String → Bool) (query : String) : Bool × Bool :=
  match containsMedicalKeyword query with
  | some _ => (true, false)
  | none =>
    match containsNonMedicalKeyword query with
    | some _ => (false, false)
    | none => (llm query, true)

/-! ### Query optimizer (src/utils/queryOptimizer.ts)

`processingTime` (wall-clock) and the constant `method: "llm"` field are
omitted from the embedding; the LLM invocation is abstracted as an
`Except`-valued outcome (an exception or timeout is `.error`, a returned
message is `.ok`). -/

/-- JavaScript `String.prototype.trim`: strip leading and trailing
whitespace.  Extensionally this is `String.trim`, but it is written by
structural recursion over the character data so that concrete responses
evaluate. -/
def jsTrim (s : String) : String :=
  String.mk (((s.data.dropWhile Char.isWhitespace).reverse.dropWhile
    Char.isWhitespace).reverse)

/-- `OptimizationResult` from src/utils/queryOptimizer.ts. -/
structure OptimizationResult where
  originalQuery : String
  optimizedQuery : String
  success : Bool
  error : Option String := none
deriving DecidableEq, Repr

/-- `optimizeQuery`: trim the LLM response; an empty trimmed response is
converted to a thrown error; the surrounding try/catch turns every failure
into a fallback result carrying the original query. -/
def optimizeQuery (llmInvoke : Except String String) (query : String) :
    OptimizationResult :=
  match llmInvoke with
  | .error e =>
    { originalQuery := query, optimizedQuery := query, success := false, error := some e }
  | .ok content =>
    let optimizedQuery := jsTrim content
    if optimizedQuery == "" then
      { originalQuery := query, optimizedQuery := query, success := false,
        error := some "LLM returned empty response" }
    else
      { originalQuery := query, optimizedQuery := optimizedQuery, success := true }

/-! ### Concrete instances used by the witnesses -/

/-- A candidate with no metadata at all (no PMID, no title). -/
def docNoPmid : Document :=
  { pageContent := "content", metadata := {} }

/-- A candidate whose index metadata carries PMID 12345. -/
def docWithPmid : Document :=
  { pageContent := "content", metadata := { pmid := some "12345" } }

/-- A client whose searches find nothing and whose fetches succeed with
empty data. -/
def emptyClient : PubMedClientModel :=
  { searchByTitleAndAuthor := fun _ _ => []
    fetchCitationCounts := fun _ => .ok fun _ => none
    fetchDocumentSummaries := fun _ => .ok fun _ => none
    fetchAbstracts := fun _ => .ok fun _ => none }

/-- A client for which the metadata service is entirely unreachable in
Phase 3: citation counts still arrive, but both `Promise.all` legs of the
full-metadata fetch reject. -/
def unreachableClient : PubMedClientModel :=
  { searchByTitleAndAuthor := fun _ _ => []
    fetchCitationCounts := fun _ => .ok fun _ => some 3
    fetchDocumentSummaries := fun _ => .error "metadata service unreachable"
    fetchAbstracts := fun _ => .error "metadata service unreachable" }

/-- An ELink response reporting two citing links for PMID 11 and nothing
for any other PMID. -/
def elinkSample : ELinkResponse :=
  { linksets := some [{ ids := ["11"]
                        linksetdbs := some [{ linkname := "pubmed_pubmed_citedin"
                                              link := some ["21", "22"] }] }] }

/-- Claim C2: `calculateQualityScore` returns
`vectorSimilarity * vectorWeight + normalized * citationWeight` where
`normalized = log(citationCount + 1) / log(maxCitations + 1)` when
`maxCitations > 0` and `normalized = 0` otherwise; in particular when
`maxCitations = 0` the citation contribution is exactly `0` regardless
of the citation weight. -/
theorem calculateQualityScore_spec :
    (∀ (vs : ℝ) (c m : Nat) (w : RankingWeights),
      calculateQualityScore vs c m w =
        vs * w.vectorSimilarity +
          (if m > 0 then Real.log (c + 1) / Real.log (m + 1) else 0) * w.citationCount) ∧
    (∀ (vs : ℝ) (c : Nat) (w : RankingWeights),
      calculateQualityScore vs c 0 w = vs * w.vectorSimilarity) := by
  refine ⟨fun vs c m w => rfl, fun vs c w => ?_⟩
  simp [calculateQualityScore]

/-- Claim C8: for fixed similarity and non-negative weights, the quality
score is monotonically non-decreasing in the citation count. -/
theorem calculateQualityScore_mono (vs : ℝ) (c c' maxCitations : Nat)
    (w : RankingWeights) (hcc : c ≤ c') (hmax : c' ≤ maxCitations)
    (hw : 0 ≤ w.citationCount) :
    calculateQualityScore vs c maxCitations w ≤ calculateQualityScore vs c' maxCitations w := by
  unfold calculateQualityScore
  refine add_le_add_left (mul_le_mul_of_nonneg_right ?_ hw) _
  rcases Nat.eq_zero_or_pos maxCitations with h0 | hpos
  · simp [h0]
  · have hlogpos : 0 < Real.log (maxCitations + 1) := by
      apply Real.log_pos
      have : (1 : ℝ) ≤ (maxCitations : ℝ) := by exact_mod_cast hpos
      linarith
    simp only [if_pos hpos]
    rw [div_le_div_iff_of_pos_right hlogpos]
    apply Real.log_le_log (by positivity)
    have : (c : ℝ) ≤ (c' : ℝ) := by exact_mod_cast hcc
    linarith

/-- Witness for C8 at `vs = 1`, `c = 1`, `c' = 2`, `maxCitations = 3` and
the default weights. -/
theorem calculateQualityScore_mono_witness :
    (1 : Nat) ≤ 2 ∧ (2 : Nat) ≤ 3 ∧
      (0 : ℝ) ≤ (RankingWeights.mk 0.7 0.3).citationCount ∧
      calculateQualityScore 1 1 3 (RankingWeights.mk 0.7 0.3) ≤
        calculateQualityScore 1 2 3 (RankingWeights.mk 0.7 0.3) :=
  ⟨by norm_num, by norm_num, by norm_num,
    calculateQualityScore_mono 1 1 2 3 (RankingWeights.mk 0.7 0.3)
      (by norm_num) (by norm_num) (by norm_num)⟩

/-! ### Helper lemmas about the re-ranking sort -/

/-- `rerankDocuments` is the stable sort of the score-assigned batch (the
empty-batch guard coincides with sorting the empty list). -/
theorem rerankDocuments_eq (documents : List EnrichedDocument) (w : RankingWeights) :
    rerankDocuments documents w =
      (documents.map (assignScore (batchMaxCitations documents) w)).insertionSort scoreGE := by
  cases documents with
  | nil => rfl
  | cons d ds => rfl

/-- A stable sort does not reorder elements that are mutually tied under
the sort relation. -/
theorem filter_insertionSort_of_tied {α : Type} (r : α → α → Prop) [DecidableRel r]
    (p : α → Bool) (l : List α) (hp : ∀ a b, p a → p b → r a b) :
    (l.insertionSort r).filter p = l.filter p := by
  have hall : ∀ a ∈ l.filter p, p a := fun a ha => List.of_mem_filter ha
  have hpair : (l.filter p).Pairwise r :=
    List.pairwise_of_forall_mem_list fun a ha b hb =>
      hp a b (List.of_mem_filter ha) (List.of_mem_filter hb)
  have hsub : List.Sublist (l.filter p) (l.insertionSort r) :=
    List.sublist_insertionSort hpair (List.filter_sublist l)
  have hsub2 : List.Sublist (l.filter p) ((l.insertionSort r).filter p) := by
    have h := hsub.filter p
    rwa [List.filter_eq_self.mpr hall] at h
  have hlen : ((l.insertionSort r).filter p).length = (l.filter p).length :=
    ((List.perm_insertionSort r l).filter p).length_eq
  exact (hsub2.eq_of_length hlen.symm).symm

/-- The length of the re-ranked batch equals the batch length. -/
theorem rerankDocuments_length (documents : List EnrichedDocument) (w : RankingWeights) :
    (rerankDocuments documents w).length = documents.length := by
  rw [rerankDocuments_eq, List.length_insertionSort, List.length_map]

/-- `getTopDocuments` returns `min n batchSize` documents. -/
theorem getTopDocuments_length (documents : List EnrichedDocument) (n : Nat)
    (w : RankingWeights) :
    (getTopDocuments documents n w).length = min n documents.length := by
  rw [getTopDocuments, List.length_take, rerankDocuments_length]

/-- Claim C3: `rerankDocuments` computes `maxCitations` once over the
batch, assigns every member its quality score, and returns a permutation
of the score-assigned input, sorted descending by quality score with ties
keeping their original relative order; `getTopDocuments` returns exactly
the first `min(n, batchSize)` of that order. -/
theorem rerankDocuments_spec (documents : List EnrichedDocument) (w : RankingWeights) :
    (rerankDocuments documents w).Perm
        (documents.map (assignScore (batchMaxCitations documents) w)) ∧
    List.Sorted scoreGE (rerankDocuments documents w) ∧
    (∀ s : ℝ, (rerankDocuments documents w).filter (fun d => decide (d.qualityScore = s)) =
      (documents.map (assignScore (batchMaxCitations documents) w)).filter
        (fun d => decide (d.qualityScore = s))) ∧
    (∀ n, getTopDocuments documents n w = (rerankDocuments documents w).take n ∧
      (getTopDocuments documents n w).length = min n documents.length) := by
  refine ⟨?_, ?_, ?_, fun n => ⟨rfl, getTopDocuments_length documents n w⟩⟩
  · rw [rerankDocuments_eq]
    exact List.perm_insertionSort _ _
  · rw [rerankDocuments_eq]
    exact List.sorted_insertionSort _ _
  · intro s
    rw [rerankDocuments_eq]
    refine filter_insertionSort_of_tied scoreGE _ _ fun a b ha hb => ?_
    simp only [decide_eq_true_eq] at ha hb
    show b.qualityScore ≤ a.qualityScore
    rw [ha, hb]

/-! ### Helper lemmas for the citation-order property -/

/-- Every member of a `zipWith` image comes from a pair of members. -/
theorem exists_of_mem_zipWith {α β γ : Type} (f : α → β → γ) :
    ∀ (l₁ : List α) (l₂ : List β) (c : γ), c ∈ List.zipWith f l₁ l₂ →
      ∃ a b, a ∈ l₁ ∧ b ∈ l₂ ∧ c = f a b
  | [], l₂, c, h => by simp at h
  | _ :: _, [], c, h => by simp at h
  | a :: l₁, b :: l₂, c, h => by
    rcases List.mem_cons.mp h with h | h
    · exact ⟨a, b, List.mem_cons_self .., List.mem_cons_self .., h⟩
    · obtain ⟨a', b', ha, hb, rfl⟩ := exists_of_mem_zipWith f l₁ l₂ c h
      exact ⟨a', b', List.mem_cons_of_mem _ ha, List.mem_cons_of_mem _ hb, rfl⟩

/-- A member of a list of naturals is bounded by the `foldr max 0`. -/
theorem le_foldr_max_of_mem {x : Nat} : ∀ {l : List Nat}, x ∈ l → x ≤ l.foldr max 0
  | a :: l, h => by
    rcases List.mem_cons.mp h with rfl | h
    · exact le_max_left _ _
    · exact le_trans (le_foldr_max_of_mem h) (le_max_right _ _)

/-- Citation counts of batch members are bounded by the batch maximum. -/
theorem docCitationCount_le_batchMax {d : EnrichedDocument}
    {documents : List EnrichedDocument} (h : d ∈ documents) :
    docCitationCount d ≤ batchMaxCitations documents :=
  le_foldr_max_of_mem (List.mem_map_of_mem docCitationCount h)

/-- For a positive citation weight the quality score is strictly
increasing in the citation count (at fixed similarity), as long as the
larger count stays within the batch maximum. -/
theorem calculateQualityScore_strict_mono (vs : ℝ) (c c' m : Nat)
    (w : RankingWeights) (hcc : c < c') (hmax : c' ≤ m)
    (hw : 0 < w.citationCount) :
    calculateQualityScore vs c m w < calculateQualityScore vs c' m w := by
  unfold calculateQualityScore
  refine add_lt_add_left (mul_lt_mul_of_pos_right ?_ hw) _
  have hmpos : 0 < m := lt_of_lt_of_le (lt_of_le_of_lt (Nat.zero_le c) hcc) hmax
  have hlogpos : 0 < Real.log (m + 1) := by
    apply Real.log_pos
    have : (1 : ℝ) ≤ (m : ℝ) := by exact_mod_cast hmpos
    linarith
  simp only [if_pos hmpos]
  rw [div_lt_div_iff_of_pos_right hlogpos]
  apply Real.log_lt_log (by positivity)
  have : (c : ℝ) < (c' : ℝ) := by exact_mod_cast hcc
  linarith

/-- `assignScore` only rewrites the score fields. -/
theorem assignScore_preserves (m : Nat) (w : RankingWeights) (d : EnrichedDocument) :
    (assignScore m w d).metadata = d.metadata ∧
      (assignScore m w d).pubmedData = d.pubmedData ∧
      docCitationCount (assignScore m w d) = docCitationCount d :=
  ⟨rfl, rfl, rfl⟩

/-- The quality score assigned to a document whose similarity is `1`. -/
theorem assignScore_qualityScore_of_sim_one (m : Nat) (w : RankingWeights)
    (d : EnrichedDocument) (h : d.vectorSimilarityScore = some 1) :
    (assignScore m w d).qualityScore =
      calculateQualityScore 1 (docCitationCount d) m w := by
  unfold assignScore
  simp only [h, Option.getD_some]

/-- Claim C9: every Phase-1 document (built by `createMinimalEnrichedDoc`)
has `vectorSimilarityScore = 1.0` regardless of the retrieval backend's
score; consequently, in a batch where every document carries similarity 1,
the re-ranked order (under the pipeline weights) is determined entirely by
citation counts: a document with a strictly higher citation count never
ranks below one with a lower count. -/
theorem phase1_similarity_one_and_citation_order :
    (∀ client documents maxA res,
        enrichWithCitationsOnly client documents maxA = .ok res →
        ∀ d ∈ res.enrichedDocs, d.vectorSimilarityScore = some 1) ∧
    (∀ documents : List EnrichedDocument,
        (∀ d ∈ documents, d.vectorSimilarityScore = some 1) →
        (rerankDocuments documents RANKING_WEIGHTS).Pairwise
          (fun a b => docCitationCount b ≤ docCitationCount a)) := by
  constructor
  · intro client documents maxA res h d hd
    unfold enrichWithCitationsOnly at h
    dsimp only at h
    split at h
    · cases h
      simp only [List.mem_map] at hd
      obtain ⟨doc, _, rfl⟩ := hd
      rfl
    · split at h
      · cases h
      · cases h
        obtain ⟨a, b, _, _, rfl⟩ := exists_of_mem_zipWith _ _ _ _ hd
        rfl
  · intro documents hsim
    have hsorted : List.Sorted scoreGE (rerankDocuments documents RANKING_WEIGHTS) := by
      rw [rerankDocuments_eq]
      exact List.sorted_insertionSort _ _
    refine hsorted.imp_of_mem ?_
    intro a b ha hb hr
    have hmem : ∀ x ∈ rerankDocuments documents RANKING_WEIGHTS,
        ∃ d ∈ documents,
          assignScore (batchMaxCitations documents) RANKING_WEIGHTS d = x := by
      intro x hx
      rw [rerankDocuments_eq] at hx
      have hx' := (List.mem_insertionSort scoreGE).mp hx
      simpa only [List.mem_map] using hx'
    obtain ⟨da, hda, rfl⟩ := hmem a ha
    obtain ⟨db, hdb, rfl⟩ := hmem b hb
    rw [(assignScore_preserves _ _ da).2.2, (assignScore_preserves _ _ db).2.2]
    by_contra hlt
    push_neg at hlt
    have hscore :
        (assignScore (batchMaxCitations documents) RANKING_WEIGHTS da).qualityScore <
          (assignScore (batchMaxCitations documents) RANKING_WEIGHTS db).qualityScore := by
      rw [assignScore_qualityScore_of_sim_one _ _ _ (hsim da hda),
        assignScore_qualityScore_of_sim_one _ _ _ (hsim db hdb)]
      exact calculateQualityScore_strict_mono 1 _ _ _ RANKING_WEIGHTS hlt
        (docCitationCount_le_batchMax hdb)
        (by rw [RANKING_WEIGHTS]; norm_num)
    exact absurd hr (not_le.mpr hscore)

/-- Witness for C9: a one-document Phase-1 run gives similarity 1, and a
one-document batch re-ranks pairwise-descending by citation count. -/
theorem phase1_similarity_one_and_citation_order_witness :
    (createMinimalEnrichedDoc docNoPmid).vectorSimilarityScore = some 1 ∧
    (rerankDocuments [createMinimalEnrichedDoc docNoPmid 3] RANKING_WEIGHTS).Pairwise
      (fun a b => docCitationCount b ≤ docCitationCount a) :=
  ⟨phase1_similarity_one_and_citation_order.1 emptyClient [docNoPmid] 5
      { enrichedCount := 0, enrichedDocs := [createMinimalEnrichedDoc docNoPmid] } rfl
      (createMinimalEnrichedDoc docNoPmid) (List.mem_singleton.mpr rfl),
   phase1_similarity_one_and_citation_order.2 [createMinimalEnrichedDoc docNoPmid 3]
      (fun d hd => by rw [List.mem_singleton] at hd; subst hd; rfl)⟩

/-! ### Helper lemmas about the funnel phases -/

/-- Phase 1 keeps exactly the truncated candidate list: same length, and a
candidate whose PMID did not resolve is carried as a minimally enriched
document with citation count 0. -/
theorem enrichWithCitationsOnly_shape (client : PubMedClientModel)
    (documents : List Document) (maxA : Nat) (res : EnrichmentResult)
    (h : enrichWithCitationsOnly client documents maxA = .ok res) :
    res.enrichedDocs.length = (documents.take maxA).length ∧
    ∀ i : Nat, (resolvePMIDs client (documents.take maxA))[i]? = some none →
      res.enrichedDocs[i]? =
        ((documents.take maxA)[i]?).map fun doc => createMinimalEnrichedDoc doc 0 := by
  unfold enrichWithCitationsOnly at h
  dsimp only at h
  split at h
  · cases h
    refine ⟨List.length_map _ _, fun i hi => ?_⟩
    exact List.getElem?_map _ _ _
  · split at h
    · cases h
    · cases h
      constructor
      · simp [List.length_zipWith, resolvePMIDs]
      · intro i hi
        rw [List.getElem?_zipWith', hi]
        cases hdoc : (documents.take maxA)[i]? with
        | none => simp
        | some doc => simp [jsTruthyS]

/-- Phase 3 returns exactly as many documents as it was given. -/
theorem enrichWithFullMetadata_length (client : PubMedClientModel)
    (documents : List EnrichedDocument) (res : EnrichmentResult)
    (h : enrichWithFullMetadata client documents = .ok res) :
    res.enrichedDocs.length = documents.length := by
  unfold enrichWithFullMetadata at h
  dsimp only at h
  split at h
  · cases h; rfl
  · split at h
    · cases h
    · cases h
    · cases h
      simp [List.length_map]

/-- The funnel, on a successful run over a non-empty intake, returns
`min TOP_K n` documents. -/
theorem pubmedEnricher_ok_length (client : PubMedClientModel)
    (documents : List Document) (out : List EnrichedDocument)
    (hne : documents ≠ []) (h : pubmedEnricher client documents = .ok out) :
    out.length = min TOP_K documents.length := by
  unfold pubmedEnricher at h
  have hie : documents.isEmpty = false := by
    cases documents with
    | nil => exact absurd rfl hne
    | cons d ds => rfl
  rw [hie] at h
  simp only [Bool.false_eq_true, if_false] at h
  split at h
  · cases h
  · rename_i citationResult heq1
    split at h
    · cases h
    · rename_i fullResult heq3
      cases h
      have h3 := enrichWithFullMetadata_length _ _ _ heq3
      have h1 := (enrichWithCitationsOnly_shape _ _ _ _ heq1).1
      rw [h3, getTopDocuments_length, h1, List.length_take]
      simp only [RERANK_CANDIDATES, TOP_K]
      omega

/-- Claim C1: for every non-empty intake, the three-phase funnel returns
exactly `min(TOP_K, intake size)` enriched documents, and a candidate
whose identifier cannot be resolved is still carried through Phase 1 with
`citationCount = 0` rather than dropped. -/
theorem funnel_invariant :
    (∀ client documents out, documents ≠ [] →
        pubmedEnricher client documents = .ok out →
        out.length = min TOP_K documents.length) ∧
    (∀ client documents maxA res,
        enrichWithCitationsOnly client documents maxA = .ok res →
        res.enrichedDocs.length = (documents.take maxA).length ∧
        ∀ i : Nat, (resolvePMIDs client (documents.take maxA))[i]? = some none →
          res.enrichedDocs[i]? =
            ((documents.take maxA)[i]?).map fun doc => createMinimalEnrichedDoc doc 0) :=
  ⟨pubmedEnricher_ok_length, enrichWithCitationsOnly_shape⟩

/-- Witness for C1: a single candidate without a resolvable identifier
flows through the whole funnel and exactly `min(TOP_K, 1) = 1` document
comes out. -/
theorem funnel_invariant_witness :
    [docNoPmid] ≠ [] ∧
    pubmedEnricher emptyClient [docNoPmid] =
      .ok [assignScore 0 RANKING_WEIGHTS (createMinimalEnrichedDoc docNoPmid)] ∧
    [assignScore 0 RANKING_WEIGHTS (createMinimalEnrichedDoc docNoPmid)].length =
      min TOP_K [docNoPmid].length :=
  ⟨by simp, rfl,
   funnel_invariant.1 emptyClient [docNoPmid]
     [assignScore 0 RANKING_WEIGHTS (createMinimalEnrichedDoc docNoPmid)]
     (by simp) rfl⟩

/-- Claim C10: Phase 3 fetches only PMIDs read from the documents'
original index metadata; a document without a non-`"0"` string PMID there
is returned completely unchanged; and neither Phase 1 nor the re-rank ever
writes a search-resolved PMID (or anything else) back into `metadata`, so
such a document keeps its `abstract`-free Phase-1 data. -/
theorem phase3_frame :
    (∀ documents, ∀ p ∈ phase3Pmids documents,
        ∃ doc ∈ documents, doc.metadata.pmid = some p ∧ p ≠ "0") ∧
    (∀ client documents res, enrichWithFullMetadata client documents = .ok res →
        ∀ (i : Nat) doc, documents[i]? = some doc →
          (jsTruthyS doc.metadata.pmid = false ∨ doc.metadata.pmid = some "0") →
          res.enrichedDocs[i]? = some doc) ∧
    (∀ doc c, (createMinimalEnrichedDoc doc c).metadata = doc.metadata ∧
        ((createMinimalEnrichedDoc doc c).pubmedData.bind PubMedData.abstract) = none) ∧
    (∀ m w d, (assignScore m w d).metadata = d.metadata ∧
        (assignScore m w d).pubmedData = d.pubmedData) := by
  refine ⟨?_, ?_, fun doc c => ⟨rfl, rfl⟩, fun m w d => ⟨rfl, rfl⟩⟩
  · intro documents p hp
    rw [phase3Pmids, List.mem_filterMap] at hp
    obtain ⟨doc, hdoc, hf⟩ := hp
    refine ⟨doc, hdoc, ?_⟩
    cases hpm : doc.metadata.pmid with
    | none => rw [hpm] at hf; cases hf
    | some q =>
      rw [hpm] at hf
      dsimp only at hf
      by_cases hq : (q == "0") = true
      · rw [if_pos hq] at hf; cases hf
      · rw [if_neg hq] at hf
        cases hf
        exact ⟨rfl, by simpa using hq⟩
  · intro client documents res h i doc hdoc hcond
    unfold enrichWithFullMetadata at h
    dsimp only at h
    split at h
    · cases h
      exact hdoc
    · split at h
      · cases h
      · cases h
      · cases h
        rw [List.getElem?_map, hdoc]
        have hguard : (!(jsTruthyS doc.metadata.pmid) || (doc.metadata.pmid == some "0")) = true := by
          rcases hcond with hcond | hcond <;> rw [hcond] <;> rfl
        dsimp only [Option.map_some']
        rw [if_pos hguard]

/-- Witness for C10: a Phase-1 document with no PMID in its metadata comes
back from Phase 3 untouched. -/
theorem phase3_frame_witness :
    ({ enrichedCount := 0, enrichedDocs := [createMinimalEnrichedDoc docNoPmid] } :
        EnrichmentResult).enrichedDocs[0]? = some (createMinimalEnrichedDoc docNoPmid) :=
  phase3_frame.2.1 emptyClient [createMinimalEnrichedDoc docNoPmid]
    { enrichedCount := 0, enrichedDocs := [createMinimalEnrichedDoc docNoPmid] } rfl
    0 (createMinimalEnrichedDoc docNoPmid) rfl (Or.inl rfl)

/-- Claim C4 evaluated on the code: when the metadata service is
unreachable in Phase 3, the funnel surfaces the exception instead of
returning the Phase-2 citation-only documents (`enrichWithFullMetadata`
has no catch, and the `pubmedEnricher` node does not catch either). -/
theorem pubmedEnricher_phase3_error_surfaces :
    pubmedEnricher unreachableClient [docWithPmid] =
      .error "metadata service unreachable" := rfl

/-! ### Helper lemmas about the citation-count mapping -/

/-- Lookup after the initialisation loop `for (pmid of pmids) counts[pmid] = 0`. -/
theorem foldl_recordSet_zero_lookup :
    ∀ (pmids : List String) (m0 : String → Option Nat) (q : String),
      (pmids.foldl (fun m pmid => recordSet m pmid 0) m0) q =
        if q ∈ pmids then some 0 else m0 q
  | [], m0, q => by simp
  | p :: ps, m0, q => by
    rw [List.foldl_cons, foldl_recordSet_zero_lookup ps _ q]
    by_cases hq : q ∈ ps
    · simp [hq, List.mem_cons]
    · by_cases hqp : q = p
      · simp [hq, hqp, recordSet, List.mem_cons]
      · simp [hq, hqp, recordSet, List.mem_cons]

/-- One linkset step never deletes a key. -/
theorem citationStep_isSome (counts : String → Option Nat) (linkset : ELinkLinkset)
    (q : String) (h : (counts q).isSome) : ((citationStep counts linkset) q).isSome := by
  unfold citationStep
  split
  · split
    · split
      · unfold recordSet
        dsimp only
        split
        · rfl
        · exact h
      · exact h
    · exact h
  · exact h

/-- A linkset that does not report citing links for `q` leaves `q`'s count
unchanged. -/
theorem citationStep_not_reports (counts : String → Option Nat) (linkset : ELinkLinkset)
    (q : String) (h : ¬ linksetReports linkset q) :
    (citationStep counts linkset) q = counts q := by
  unfold citationStep
  split
  · rename_i htruthy
    split
    · rename_i citedByLink hfind
      split
      · rename_i links hlink
        unfold recordSet
        dsimp only
        split
        · rename_i hq
          exfalso
          apply h
          refine ⟨htruthy, ?_, citedByLink, hfind, by rw [hlink]; rfl⟩
          cases hhead : linkset.ids.head? with
          | none => rw [hhead] at htruthy; cases htruthy
          | some s =>
            rw [hhead] at hq
            simp only [Option.getD_some] at hq
            rw [hq]
        · rfl
      · rfl
    · rfl
  · rfl

/-- The linkset fold never deletes a key. -/
theorem foldl_citationStep_isSome :
    ∀ (linksets : List ELinkLinkset) (counts : String → Option Nat) (q : String),
      (counts q).isSome → ((linksets.foldl citationStep counts) q).isSome
  | [], _, _, h => h
  | ls :: rest, counts, q, h =>
    foldl_citationStep_isSome rest _ q (citationStep_isSome counts ls q h)

/-- The linkset fold leaves a key unchanged when no linkset reports it. -/
theorem foldl_citationStep_not_reports :
    ∀ (linksets : List ELinkLinkset) (counts : String → Option Nat) (q : String),
      (∀ ls ∈ linksets, ¬ linksetReports ls q) →
      (linksets.foldl citationStep counts) q = counts q
  | [], _, _, _ => rfl
  | ls :: rest, counts, q, h => by
    rw [List.foldl_cons,
      foldl_citationStep_not_reports rest _ q
        (fun l hl => h l (List.mem_cons_of_mem _ hl)),
      citationStep_not_reports counts ls q (h ls (List.mem_cons_self ..))]

/-- Claim C5: the mapping returned by `fetchCitationCounts` contains every
requested id as a key, with value 0 when the service reports no citing
links for it; and on the empty input list both `fetchCitationCounts` and
`fetchDocumentSummaries` return the empty mapping without issuing a
network request. -/
theorem fetchCitationCounts_spec :
    (∀ (data : ELinkResponse) (pmids : List String) (res : String → Option Nat) (n : Nat),
        fetchCitationCounts (.ok data) pmids = (.ok res, n) →
        (∀ p ∈ pmids, (res p).isSome) ∧
        (∀ p ∈ pmids, (∀ ls ∈ data.linksets.getD [], ¬ linksetReports ls p) →
          res p = some 0)) ∧
    (∀ response, fetchCitationCounts response [] = (.ok fun _ => none, 0)) ∧
    (∀ response, fetchDocumentSummaries response [] = (.ok fun _ => none, 0)) := by
  refine ⟨?_, fun response => rfl, fun response => rfl⟩
  intro data pmids res n h
  unfold fetchCitationCounts at h
  split at h
  · rename_i hempty
    rw [List.isEmpty_iff] at hempty
    subst hempty
    constructor
    · intro p hp
      cases hp
    · intro p hp
      cases hp
  · dsimp only at h
    simp only [Prod.mk.injEq, Except.ok.injEq] at h
    obtain ⟨hres, -⟩ := h
    subst hres
    have hinit : ∀ p ∈ pmids,
        (pmids.foldl (fun m pmid => recordSet m pmid 0) (fun _ => none)) p = some 0 := by
      intro p hp
      rw [foldl_recordSet_zero_lookup, if_pos hp]
    constructor
    · intro p hp
      unfold citationFold
      exact foldl_citationStep_isSome _ _ p (by rw [hinit p hp]; rfl)
    · intro p hp hnor
      unfold citationFold
      rw [foldl_citationStep_not_reports _ _ p hnor, hinit p hp]

/-- Witness for C5: with a concrete ELink response reporting links only
for PMID 11, the requested PMID 22 is still a key of the result. -/
theorem fetchCitationCounts_spec_witness :
    (citationFold elinkSample ["11", "22"] "22").isSome = true :=
  (fetchCitationCounts_spec.1 elinkSample ["11", "22"]
      (citationFold elinkSample ["11", "22"]) 1 rfl).1 "22" (by simp)

/-! ### Helper lemma: `find?` returns the first hit in list order -/

/-- `List.find?` returns an element at a position all of whose
predecessors fail the predicate. -/
theorem find?_first {α : Type} (p : α → Bool) :
    ∀ (l : List α) (k : α), l.find? p = some k →
      ∃ i : Nat, l[i]? = some k ∧ p k ∧
        ∀ j : Nat, j < i → ∀ x, l[j]? = some x → ¬ p x
  | a :: l, k, h => by
    by_cases hpa : p a
    · rw [List.find?_cons_of_pos _ hpa] at h
      cases h
      exact ⟨0, List.getElem?_cons_zero, hpa, fun j hj => absurd hj (Nat.not_lt_zero j)⟩
    · rw [List.find?_cons_of_neg _ hpa] at h
      obtain ⟨i, hi, hpk, hmin⟩ := find?_first p l k h
      refine ⟨i + 1, by rw [List.getElem?_cons_succ]; exact hi, hpk, ?_⟩
      intro j hj x hx
      cases j with
      | zero =>
        rw [List.getElem?_cons_zero] at hx
        cases hx
        exact hpa
      | succ j =>
        rw [List.getElem?_cons_succ] at hx
        exact hmin j (Nat.lt_of_succ_lt_succ hj) x hx

/-- Claim C6: scope classification matches the lowercased query against
the medical list first (in list order, first hit decides medical and
stops), then the non-medical list, and consults the LLM only when neither
matches; a query matching both lists is classified medical without the
LLM. -/
theorem classifyQuery_spec :
    (∀ (llm : String → Bool) (query : String),
        (∃ k ∈ MEDICAL_KEYWORDS, jsIncludes (jsToLower query) k) →
          classifyQuery llm query = (true, false)) ∧
    (∀ (llm : String → Bool) (query : String),
        (∀ k ∈ MEDICAL_KEYWORDS, ¬ jsIncludes (jsToLower query) k) →
        (∃ k ∈ NON_MEDICAL_KEYWORDS, jsIncludes (jsToLower query) k) →
          classifyQuery llm query = (false, false)) ∧
    (∀ (llm : String → Bool) (query : String),
        (∀ k ∈ MEDICAL_KEYWORDS, ¬ jsIncludes (jsToLower query) k) →
        (∀ k ∈ NON_MEDICAL_KEYWORDS, ¬ jsIncludes (jsToLower query) k) →
          classifyQuery llm query = (llm query, true)) ∧
    (∀ (llm : String → Bool) (query : String),
        (∃ k ∈ MEDICAL_KEYWORDS, jsIncludes (jsToLower query) k) →
        (∃ k ∈ NON_MEDICAL_KEYWORDS, jsIncludes (jsToLower query) k) →
          classifyQuery llm query = (true, false)) ∧
    (∀ (query k : String), containsMedicalKeyword query = some k →
        ∃ i : Nat, MEDICAL_KEYWORDS[i]? = some k ∧ jsIncludes (jsToLower query) k ∧
          ∀ j : Nat, j < i → ∀ x, MEDICAL_KEYWORDS[j]? = some x →
            ¬ jsIncludes (jsToLower query) x) := by
  have hmedcase : ∀ (llm : String → Bool) (query : String),
      (∃ k ∈ MEDICAL_KEYWORDS, jsIncludes (jsToLower query) k) →
        classifyQuery llm query = (true, false) := by
    intro llm query hex
    have hsome : (containsMedicalKeyword query).isSome := by
      unfold containsMedicalKeyword
      rw [List.find?_isSome]
      exact hex
    obtain ⟨k, hk⟩ := Option.isSome_iff_exists.mp hsome
    unfold classifyQuery
    rw [hk]
  refine ⟨hmedcase, ?_, ?_, fun llm query hm _ => hmedcase llm query hm, ?_⟩
  · intro llm query hmed hnon
    have hmednone : containsMedicalKeyword query = none := by
      unfold containsMedicalKeyword
      rw [List.find?_eq_none]
      exact hmed
    have hsome : (containsNonMedicalKeyword query).isSome := by
      unfold containsNonMedicalKeyword
      rw [List.find?_isSome]
      exact hnon
    obtain ⟨k, hk⟩ := Option.isSome_iff_exists.mp hsome
    unfold classifyQuery
    rw [hmednone, hk]
  · intro llm query hmed hnon
    have hmednone : containsMedicalKeyword query = none := by
      unfold containsMedicalKeyword
      rw [List.find?_eq_none]
      exact hmed
    have hnonnone : containsNonMedicalKeyword query = none := by
      unfold containsNonMedicalKeyword
      rw [List.find?_eq_none]
      exact hnon
    unfold classifyQuery
    rw [hmednone, hnonnone]
  · intro query k hk
    unfold containsMedicalKeyword at hk
    exact find?_first _ MEDICAL_KEYWORDS k hk

/-- Witness for C6: a query containing an upper-case medical keyword and
an upper-case non-medical keyword is classified medical without the LLM
(whose answer here would have been `false`). -/
theorem classifyQuery_spec_witness :
    (∃ k ∈ MEDICAL_KEYWORDS, jsIncludes (jsToLower "My HEART hurts and I want PIZZA") k) ∧
    (∃ k ∈ NON_MEDICAL_KEYWORDS, jsIncludes (jsToLower "My HEART hurts and I want PIZZA") k) ∧
    classifyQuery (fun _ => false) "My HEART hurts and I want PIZZA" = (true, false) :=
  ⟨by decide, by decide,
   classifyQuery_spec.2.2.2.1 (fun _ => false) "My HEART hurts and I want PIZZA"
     (by decide) (by decide)⟩

/-- Claim C7: `optimizeQuery` is total (the embedding returns a plain
`OptimizationResult`, mirroring the catch-all try/catch), and on any
failure of the rewrite capability — a thrown error/timeout (`.error`) or
an empty trimmed result — it returns the original, unmodified query with
`success = false`. -/
theorem optimizeQuery_spec :
    (∀ (llmInvoke : Except String String) (query : String),
        (optimizeQuery llmInvoke query).originalQuery = query ∧
        ((optimizeQuery llmInvoke query).success = false →
          (optimizeQuery llmInvoke query).optimizedQuery = query)) ∧
    (∀ (e query : String),
        optimizeQuery (.error e) query =
          { originalQuery := query, optimizedQuery := query, success := false,
            error := some e }) ∧
    (∀ (content query : String), jsTrim content = "" →
        (optimizeQuery (.ok content) query).optimizedQuery = query ∧
        (optimizeQuery (.ok content) query).success = false) := by
  refine ⟨?_, fun e query => rfl, ?_⟩
  · intro llmInvoke query
    cases llmInvoke with
    | error e => exact ⟨rfl, fun _ => rfl⟩
    | ok content =>
      unfold optimizeQuery
      dsimp only
      split
      · exact ⟨rfl, fun _ => rfl⟩
      · exact ⟨rfl, fun hfalse => absurd hfalse (by simp)⟩
  · intro content query htrim
    unfold optimizeQuery
    dsimp only
    have : (jsTrim content == "") = true := by rw [htrim]; rfl
    rw [if_pos this]
    exact ⟨rfl, rfl⟩

/-- Witness for C7: a whitespace-only rewrite answer falls back to the
original query with the success flag cleared. -/
theorem optimizeQuery_spec_witness :
    (jsTrim "   " = "") ∧
    (optimizeQuery (.ok "   ") "chest pain").optimizedQuery = "chest pain" ∧
    (optimizeQuery (.ok "   ") "chest pain").success = false :=
  ⟨by decide,
   (optimizeQuery_spec.2.2 "   " "chest pain" (by decide)).1,
   (optimizeQuery_spec.2.2 "   " "chest pain" (by decide)).2⟩
